import Mathlib

/-!
Shallow embedding of the multi-proxy-config-fetcher repository
(`src/config_validator.py` and `src/config.py`) and proofs about it.

Strings are modelled as `List Char`; Python `str.find`/slicing become
index computations over character lists; Python floats become exact
rationals (`ℚ`); fallible code (functions whose Python body can raise,
with the exception caught by a caller) returns `Option`.
-/

namespace MPCF

/-! ## Python string primitives -/

/-- Characters stripped by Python `str.strip()` (the ASCII whitespace
subset; the exotic Unicode space code points never occur in the inputs
this development reasons about). -/
def isPySpace (c : Char) : Bool :=
  c = ' ' || c = '\t' || c = '\n' || c = '\r' || c = '\x0b' || c = '\x0c'

def lstripWith (p : Char → Bool) (s : List Char) : List Char :=
  s.dropWhile p

def rstripWith (p : Char → Bool) (s : List Char) : List Char :=
  (s.reverse.dropWhile p).reverse

/-- Python `str.strip()`. -/
def pyStrip (s : List Char) : List Char :=
  rstripWith isPySpace (lstripWith isPySpace s)

/-- Python `str.strip(chars)` for a single character. -/
def pyStripChar (c : Char) (s : List Char) : List Char :=
  rstripWith (· = c) (lstripWith (· = c) s)

/-- Python `str.split('\n')`. -/
def splitNl : List Char → List (List Char)
  | [] => [[]]
  | c :: rest =>
    if c = '\n' then [] :: splitNl rest
    else
      match splitNl rest with
      | [] => [[c]]
      | l :: ls => (c :: l) :: ls

/-- Python `str.splitlines()` restricted to the `\n`, `\r`, `\r\n`
line terminators (the Unicode-only terminators never occur in the
inputs this development reasons about). Every recursive step consumes
at least one character, so `fuel = length` suffices. -/
def pySplitlinesAux : Nat → List Char → List (List Char)
  | _, [] => []
  | 0, _ :: _ => []
  | fuel + 1, s =>
    let line := s.takeWhile (fun c => c ≠ '\n' ∧ c ≠ '\r')
    match s.drop line.length with
    | '\r' :: '\n' :: rest2 => line :: pySplitlinesAux fuel rest2
    | _ :: rest2 => line :: pySplitlinesAux fuel rest2
    | [] => [line]

def pySplitlines (s : List Char) : List (List Char) :=
  pySplitlinesAux s.length s

/-- Index of the first occurrence of `pat` in `text`
(`text.find(pat)`; `none` models Python's `-1`). -/
def findSub (text pat : List Char) : Option Nat :=
  match text with
  | [] => if pat = [] then some 0 else none
  | _ :: rest =>
    if pat.isPrefixOf text then some 0
    else (findSub rest pat).map (· + 1)

/-- Python `text.find(pat, start)`; `none` models `-1`. -/
def pyFind (text pat : List Char) (start : Nat) : Option Nat :=
  (findSub (text.drop start) pat).map (· + start)

/-- Python slice `text[a:b]` (for `a ≤ b`; the callers in this
development always satisfy that). -/
def pySlice (text : List Char) (a b : Nat) : List Char :=
  (text.drop a).take (b - a)

/-! ## config_validator.py -/

/-- `ALLOWED_PROTOCOLS` of `config_validator.py` (and the identical
list in `config.py`). -/
def allowedProtocols : List (List Char) :=
  ["vless://", "trojan://", "tuic://", "hy2://"].map String.toList

/-- The character class `[A-Za-z0-9+/\-_]` of `ConfigValidator.is_base64`. -/
def b64ClassChar (c : Char) : Bool :=
  c.isAlpha || c.isDigit || c = '+' || c = '/' || c = '-' || c = '_'

/-- `ConfigValidator.is_base64`: strips trailing `'='` and tests the
regex `^[A-Za-z0-9+/\-_]*$` with `re.match` (whose `$` also accepts a
single final newline). -/
def is_base64 (s : List Char) : Bool :=
  let t := rstripWith (· = '=') s
  t.all b64ClassChar || (t.getLast? = some '\n' && t.dropLast.all b64ClassChar)

/-- Value of a standard-alphabet base64 digit. -/
def b64CharVal (c : Char) : Option Nat :=
  if 'A' ≤ c && c ≤ 'Z' then some (c.toNat - 65)
  else if 'a' ≤ c && c ≤ 'z' then some (c.toNat - 97 + 26)
  else if '0' ≤ c && c ≤ '9' then some (c.toNat - 48 + 52)
  else if c = '+' then some 62
  else if c = '/' then some 63
  else none

/-- Decoding of a base64 string as quads of digits, modelling
`base64.b64decode` on the inputs `decode_base64_url` produces
(standard-alphabet digits followed only by trailing `'='` padding,
total length a multiple of 4); other paddings raise in Python and
yield `none` here. -/
def decodeQuads : List Char → Option (List Nat)
  | [] => some []
  | c1 :: c2 :: c3 :: c4 :: rest => do
    let v1 ← b64CharVal c1
    let v2 ← b64CharVal c2
    if c3 = '=' then
      if c4 = '=' && rest.isEmpty then some [v1 * 4 + v2 / 16] else none
    else do
      let v3 ← b64CharVal c3
      if c4 = '=' then
        if rest.isEmpty then some [v1 * 4 + v2 / 16, (v2 % 16) * 16 + v3 / 4]
        else none
      else do
        let v4 ← b64CharVal c4
        let tail ← decodeQuads rest
        some ([v1 * 4 + v2 / 16, (v2 % 16) * 16 + v3 / 4, (v3 % 4) * 64 + v4] ++ tail)
  | _ => none

/-- `ConfigValidator.decode_base64_url`: maps the URL-safe alphabet to
the standard one, restores padding to a multiple of 4, then decodes;
`none` models the caught exception. -/
def decode_base64_url (s : List Char) : Option (List Nat) :=
  let s := s.map fun c => if c = '-' then '+' else if c = '_' then '/' else c
  let padding := 4 - s.length % 4
  let s := if padding ≠ 4 then s ++ List.replicate padding '=' else s
  if s.all (fun c => c.toNat < 128) then decodeQuads s else none

/-- Strict UTF-8 decoding of a byte list (Python `bytes.decode('utf-8')`;
`none` models the `UnicodeDecodeError` the callers catch). Rejects
overlong encodings, surrogates and out-of-range code points, as CPython
does. One character consumes at least one byte, so `fuel = length`
suffices. -/
def utf8DecodeAux : Nat → List Nat → Option (List Char)
  | _, [] => some []
  | 0, _ :: _ => none
  | fuel + 1, b :: rest =>
    if b < 0x80 then
      (utf8DecodeAux fuel rest).map (Char.ofNat b :: ·)
    else if b < 0xC2 then none
    else if b < 0xE0 then
      match rest with
      | b2 :: rest2 =>
        if 0x80 ≤ b2 && b2 < 0xC0 then
          (utf8DecodeAux fuel rest2).map (Char.ofNat ((b - 0xC0) * 64 + (b2 - 0x80)) :: ·)
        else none
      | [] => none
    else if b < 0xF0 then
      match rest with
      | b2 :: b3 :: rest2 =>
        if 0x80 ≤ b2 && b2 < 0xC0 && 0x80 ≤ b3 && b3 < 0xC0 then
          let cp := (b - 0xE0) * 4096 + (b2 - 0x80) * 64 + (b3 - 0x80)
          if cp < 0x800 || (0xD800 ≤ cp && cp < 0xE000) then none
          else (utf8DecodeAux fuel rest2).map (Char.ofNat cp :: ·)
        else none
      | _ => none
    else if b < 0xF5 then
      match rest with
      | b2 :: b3 :: b4 :: rest2 =>
        if 0x80 ≤ b2 && b2 < 0xC0 && 0x80 ≤ b3 && b3 < 0xC0 && 0x80 ≤ b4 && b4 < 0xC0 then
          let cp := (b - 0xF0) * 262144 + (b2 - 0x80) * 4096 + (b3 - 0x80) * 64 + (b4 - 0x80)
          if cp < 0x10000 || 0x110000 ≤ cp then none
          else (utf8DecodeAux fuel rest2).map (Char.ofNat cp :: ·)
        else none
      | _ => none
    else none

def utf8Decode (bs : List Nat) : Option (List Char) :=
  utf8DecodeAux bs.length bs

/-- `ConfigValidator.decode_base64_text`. Python's `if decoded:` treats
empty bytes as falsy. -/
def decode_base64_text (text : List Char) : Option (List Char) :=
  if is_base64 text then
    match decode_base64_url text with
    | some bytes => if bytes.isEmpty then none else utf8Decode bytes
    | none => none
  else none

/-- `ConfigValidator.check_base64_content`: returns the decoded text
when it contains at least one allowed protocol prefix as a substring. -/
def check_base64_content (text : List Char) : Option (List Char) :=
  match decode_base64_text text with
  | some decoded =>
    if decoded ≠ [] ∧ allowedProtocols.any (fun p => (findSub decoded p).isSome) then
      some decoded
    else none
  | none => none

/-- Python `s.replace(old, new, 1)`: rewrite the first occurrence only. -/
def pyReplaceOnce (s old new : List Char) : List Char :=
  match findSub s old with
  | some i => s.take i ++ new ++ s.drop (i + old.length)
  | none => s

/-- `ConfigValidator.normalize_hysteria2_protocol`. -/
def normalize_hysteria2_protocol (config : List Char) : List Char :=
  if "hysteria2://".toList.isPrefixOf config then
    pyReplaceOnce config "hysteria2://".toList "hy2://".toList
  else config

/-- `ConfigValidator.is_valid_config`: non-empty and starting with an
allowed protocol prefix. -/
def is_valid_config (config : List Char) : Bool :=
  if config = [] then false
  else allowedProtocols.any fun p => p.isPrefixOf config

/-- Inner-loop append of `split_configs`: a candidate record is kept
only when `is_valid_config` holds. -/
def appendIfValid (configs : List (List Char)) (c : List Char) : List (List Char) :=
  if is_valid_config c then configs ++ [c] else configs

/-- The `for protocol in protocols` search of `split_configs`
(lines 103–109): nearest occurrence of any allowed prefix at or after
`pos`, together with that prefix; starts from `(text_length, None)`. -/
def nearestProtocolFrom (text : List Char) (pos : Nat) : Nat × Option (List Char) :=
  allowedProtocols.foldl
    (fun acc protocol =>
      match pyFind text protocol pos with
      | some p => if p < acc.1 then (p, some protocol) else acc
      | none => acc)
    (text.length, none)

/-- The second search of `split_configs` (lines 116–120): nearest
occurrence of any allowed prefix at or after `pos`, defaulting to
`text_length`. -/
def nearestAnyFrom (text : List Char) (pos : Nat) : Nat :=
  allowedProtocols.foldl
    (fun acc protocol =>
      match pyFind text protocol pos with
      | some p => if p < acc then p else acc
      | none => acc)
    text.length

/-- The `while current_pos < text_length` loop of `split_configs`
(lines 102–128). `current_pos` strictly increases on every iteration
that recurses, so `fuel = text.length + 1` is enough for the wrapper
below. -/
def scanLoop (text : List Char) : Nat → Nat → List (List Char) → List (List Char)
  | 0, _, configs => configs
  | fuel + 1, currentPos, configs =>
    if currentPos < text.length then
      match nearestProtocolFrom text currentPos with
      | (_, none) => configs
      | (nextConfigStart, some matchingProtocol) =>
        let configs :=
          if currentPos < nextConfigStart ∧ configs ≠ [] then
            appendIfValid configs (pyStrip (pySlice text currentPos nextConfigStart))
          else configs
        let nextProtocolPos := nearestAnyFrom text (nextConfigStart + matchingProtocol.length)
        let cc := pyStrip (pySlice text nextConfigStart nextProtocolPos)
        let cc :=
          if matchingProtocol = "hy2://".toList then normalize_hysteria2_protocol cc
          else cc
        scanLoop text fuel nextProtocolPos (appendIfValid configs cc)
    else configs

/-- The `for line in lines` loop of `split_configs` (lines 88–128).
Note that the Python body scans the *whole* working `text` (not the
current `line`), and that a successfully decoded base64 line replaces
`text` for this and all later iterations. -/
def splitConfigsLines : List (List Char) → List Char → List (List Char) → List (List Char)
  | [], _, configs => configs
  | line :: rest, text, configs =>
    let line := pyStrip line
    if line = [] then splitConfigsLines rest text configs
    else
      let text :=
        if is_base64 line then
          match check_base64_content line with
          | some decoded => decoded
          | none => text
        else text
      splitConfigsLines rest text (scanLoop text (text.length + 1) 0 configs)

/-- `ConfigValidator.split_configs`. -/
def split_configs (text : List Char) : List (List Char) :=
  splitConfigsLines (splitNl text) text []

/-! ### urlparse model -/

/-- Result of `urllib.parse.urlparse` (the `params` component is not
modelled; none of the URLs this development reasons about uses the
`;`-parameter syntax). -/
structure UrlParts where
  scheme : List Char
  netloc : List Char
  path : List Char
  query : List Char
  fragment : List Char
deriving DecidableEq

/-- Split at the first occurrence of `c`, dropping it. -/
def splitFirst (s : List Char) (c : Char) : List Char × List Char :=
  match findSub s [c] with
  | some i => (s.take i, s.drop (i + 1))
  | none => (s, [])

/-- Characters allowed after the first one in a URL scheme. -/
def schemeTailChar (c : Char) : Bool :=
  c.isAlpha || c.isDigit || c = '+' || c = '-' || c = '.'

/-- Model of `urllib.parse.urlparse`: split off the fragment at the
first `#`; then the scheme (a letter followed by letters, digits,
`+`, `-`, `.`, terminated by `:`), lower-cased; then, after a leading
`//`, the netloc up to the first `/` or `?`; then path and query. -/
def pyUrlparse (url : List Char) : UrlParts :=
  let (rest, fragment) := splitFirst url '#'
  let (scheme, rest) :=
    match findSub rest [':'] with
    | some i =>
      let pre := rest.take i
      if pre ≠ [] ∧ (pre.head?.elim false Char.isAlpha) ∧ pre.all schemeTailChar then
        (pre.map Char.toLower, rest.drop (i + 1))
      else ([], rest)
    | none => ([], rest)
  let (netloc, rest) :=
    if "//".toList.isPrefixOf rest then
      let after := rest.drop 2
      let n := after.takeWhile fun c => c ≠ '/' ∧ c ≠ '?'
      (n, after.drop n.length)
    else ([], rest)
  let (path, query) := splitFirst rest '?'
  { scheme := scheme, netloc := netloc, path := path, query := query, fragment := fragment }

/-- `ConfigValidator.validate_protocol_config`. -/
def validate_protocol_config (config protocol : List Char) : Bool :=
  if ¬ allowedProtocols.contains protocol then false
  else if protocol = "vless://".toList ∨ protocol = "trojan://".toList then
    !(pyUrlparse config).netloc.isEmpty
  else if protocol = "tuic://".toList then
    !(pyUrlparse config).netloc.isEmpty && (pyUrlparse config).netloc.contains ':'
  else if protocol = "hy2://".toList then
    !(pyUrlparse (normalize_hysteria2_protocol config)).netloc.isEmpty
  else false

/-! ## config.py: constants, metrics and scoring -/

def MAX_SOURCE_CHECKS : Nat := 30

def MIN_ACCEPTABLE_SCORE : ℚ := 50

def RELIABILITY_WEIGHT : ℚ := 35

def QUANTITY_WEIGHT : ℚ := 25

def DIVERSITY_WEIGHT : ℚ := 25

def FREQUENCY_WEIGHT : ℚ := 15

/-- `DESIRED_TOTAL_CONFIGS = PROFILE_MAX_COUNT = 1000`. -/
def DESIRED_TOTAL_CONFIGS : ℚ := 1000

def TOTAL_POSSIBLE_PROTOCOLS : ℚ := 4

/-- The `ChannelMetrics` dataclass. Python floats are modelled as
exact rationals; `datetime` timestamps as rational seconds. -/
structure ChannelMetrics where
  total_configs : Nat := 0
  valid_configs : Nat := 0
  unique_configs : Nat := 0
  avg_response_time : ℚ := 0
  last_success_time : Option ℚ := none
  fail_count : Nat := 0
  success_count : Nat := 0
  overall_score : ℚ := 0
  protocol_counts : List (List Char × Nat) := []
deriving DecidableEq

/-- The mutable state of a `ChannelConfig` object. -/
structure ChannelConfig where
  url : String
  enabled : Bool := true
  metrics : ChannelMetrics := {}
  is_telegram : Bool := false
  error_count : Nat := 0
  request_timeout : Nat := 60
  check_count : Nat := 0
deriving DecidableEq

/-- `ChannelConfig._validate_url` (`none` models the raised
`ValueError`) followed by the rest of `ChannelConfig.__init__`. -/
def mkChannelConfig (url : String) : Option ChannelConfig :=
  let url := String.mk (pyStrip url.toList)
  if "http://".toList.isPrefixOf url.toList ∨ "https://".toList.isPrefixOf url.toList
      ∨ "ssconf://".toList.isPrefixOf url.toList then
    some { url := url, is_telegram := "https://t.me/s/".toList.isPrefixOf url.toList }
  else none

/-- Python `round(x, 2)` modelled as round-half-up on exact rationals.
(CPython rounds the nearest-double half to even; no theorem below
evaluates it at a tie or at a value where the double rounding error
matters.) -/
def round2 (q : ℚ) : ℚ :=
  ((⌊q * 100 + 1 / 2⌋ : ℤ) : ℚ) / 100

/-- `ChannelConfig.calculate_overall_score`, as a function of the
metrics and of the current time `now` (`datetime.now()`), returning
the new `overall_score`. The one arithmetic fault the Python body can
raise — `ZeroDivisionError` when `delta + 3600 = 0` — is caught by its
`except` and forces the score to `0`, modelled by the explicit test. -/
def calculate_overall_score (now : ℚ) (m : ChannelMetrics) : ℚ :=
  let total_attempts : ℚ := max 1 ((m.success_count : ℚ) + (m.fail_count : ℚ))
  let reliability_score := ((m.success_count : ℚ) / total_attempts) * RELIABILITY_WEIGHT
  let quantity_score :=
    min QUANTITY_WEIGHT (((m.total_configs : ℚ) / DESIRED_TOTAL_CONFIGS) * QUANTITY_WEIGHT)
  let diversity_score := ((m.unique_configs : ℚ) / TOTAL_POSSIBLE_PROTOCOLS) * DIVERSITY_WEIGHT
  match m.last_success_time with
  | some t =>
    let delta := now - t
    if delta + 3600 = 0 then 0
    else
      let frequency_score := max 0 (FREQUENCY_WEIGHT * (3600 / (delta + 3600)))
      round2 (reliability_score + quantity_score + diversity_score + frequency_score)
  | none =>
    round2 (reliability_score + quantity_score + diversity_score + 0)

/-- `channel.calculate_overall_score()` as a state update. -/
def applyScore (now : ℚ) (ch : ChannelConfig) : ChannelConfig :=
  { ch with metrics := { ch.metrics with overall_score := calculate_overall_score now ch.metrics } }

/-- The disable check that appears verbatim both in
`ProxyConfig.update_channel_stats` (lines 337–339) and in
`process_channel` (lines 468–470). -/
def applyBreaker (ch : ChannelConfig) : ChannelConfig :=
  if ch.check_count ≥ MAX_SOURCE_CHECKS ∧ ch.metrics.overall_score < MIN_ACCEPTABLE_SCORE then
    { ch with enabled := false }
  else ch

/-- Lines 325–329 of `update_channel_stats`: record the fetch outcome. -/
def statsOutcome (now : ℚ) (success : Bool) (m : ChannelMetrics) : ChannelMetrics :=
  if success then { m with success_count := m.success_count + 1, last_success_time := some now }
  else { m with fail_count := m.fail_count + 1 }

/-- Lines 330–334 of `update_channel_stats`: the EMA step, applied only
when `response_time > 0`; `0.7`/`0.3` are the float literals, exact here. -/
def statsEma (response_time : ℚ) (m : ChannelMetrics) : ChannelMetrics :=
  if response_time > 0 then
    if m.avg_response_time = 0 then { m with avg_response_time := response_time }
    else { m with avg_response_time := m.avg_response_time * (7 / 10) + response_time * (3 / 10) }
  else m

/-- `ProxyConfig.update_channel_stats` (the trailing
`save_empty_config_file` call is file I/O and does not mutate the
channel). -/
def update_channel_stats (now : ℚ) (success : Bool) (response_time : ℚ)
    (ch : ChannelConfig) : ChannelConfig :=
  applyBreaker (applyScore now
    { ch with metrics := statsEma response_time (statsOutcome now success ch.metrics) })

/-! ## config.py: per-profile scoring and channel processing -/

/-- `compute_profile_score`: the `base_scores` dict iterated in
insertion order; the extra term is `len(config) / 10.0`. -/
def compute_profile_score (config : List Char) : ℚ :=
  if "vless://".toList.isPrefixOf config then 100 + (config.length : ℚ) / 10
  else if "trojan://".toList.isPrefixOf config then 90 + (config.length : ℚ) / 10
  else if "tuic://".toList.isPrefixOf config then 80 + (config.length : ℚ) / 10
  else if "hy2://".toList.isPrefixOf config then 70 + (config.length : ℚ) / 10
  else 0

/-- `country_code_to_emoji`. -/
def country_code_to_emoji (country_code : List Char) : List Char :=
  country_code.map fun c => Char.ofNat (c.toUpper.toNat + 127397)

/-- What `ip_db.get_all` yields (the geo-IP collaborator is external;
a lookup that raises is modelled by the lookup function returning
`none`). -/
structure GeoRecord where
  country_long : List Char
  country_short : List Char

/-- One entry of the `proxies` list built by `process_channel`. -/
structure ProxyEntry where
  config : List Char
  flag : List Char
  score : ℚ
deriving DecidableEq

/-- `\d{1,3}` matched greedily at the head of `s` with backtracking
length `n`: exactly `n` digits. -/
def tryOctet (s : List Char) (n : Nat) : Option (List Char × List Char) :=
  let pre := s.take n
  if pre.length = n ∧ pre.all Char.isDigit then some (pre, s.drop n) else none

/-- `(?:\.\d{1,3}){count}` at the head of `s`, with the greedy
backtracking order of the `re` engine (3, then 2, then 1 digits). -/
def matchDotOctets : Nat → List Char → Option (List Char)
  | 0, _ => some []
  | count + 1, s =>
    match s with
    | '.' :: rest =>
      let tryLen := fun (n : Nat) => do
        let (pre, rest2) ← tryOctet rest n
        let m ← matchDotOctets count rest2
        some ('.' :: (pre ++ m))
      tryLen 3 <|> tryLen 2 <|> tryLen 1
    | _ => none

/-- The regex `\d{1,3}(?:\.\d{1,3}){3}` anchored at the head of `s`. -/
def ipMatchAt (s : List Char) : Option (List Char) :=
  let tryFirst := fun (n : Nat) => do
    let (pre, rest) ← tryOctet s n
    let m ← matchDotOctets 3 rest
    some (pre ++ m)
  tryFirst 3 <|> tryFirst 2 <|> tryFirst 1

/-- `re.search(r'(\d{1,3}(?:\.\d{1,3}){3})', line)`: leftmost match. -/
def reSearchIPv4 : List Char → Option (List Char)
  | [] => none
  | c :: rest => ipMatchAt (c :: rest) <|> reSearchIPv4 rest

/-- `dict.get(proto, 0) + 1` assignment on a Python dict, which keeps
insertion order and appends new keys at the end. -/
def bumpCount : List (List Char × Nat) → List Char → List (List Char × Nat)
  | [], k => [(k, 1)]
  | (k', v) :: rest, k =>
    if k' = k then (k', v + 1) :: rest else (k', v) :: bumpCount rest k

/-- The body of the `for line in lines` loop of `process_channel`
(lines 415–457) for one already-stripped non-empty line: updates the
metrics and possibly produces a proxy entry. `ip_db` is the external
geo-IP collaborator (`none` when the database is unavailable; the
lookup returning `none` models `get_all` raising). -/
def processLineEntry (ip_db : Option (List Char → Option GeoRecord))
    (line : List Char) : ProxyEntry :=
  let score := compute_profile_score line
  let flag := "Unknown".toList
  match reSearchIPv4 line, ip_db with
  | some ip, some db =>
    match db ip with
    | some rec =>
      let flag := if rec.country_short ≠ [] then country_code_to_emoji rec.country_short else flag
      { config := line, flag := flag, score := score + 10 }
    | none => { config := line, flag := flag, score := score }
  | _, _ => { config := line, flag := flag, score := score - 5 }

def processLine (ip_db : Option (List Char → Option GeoRecord))
    (m : ChannelMetrics) (line : List Char) : ChannelMetrics × Option ProxyEntry :=
  let m := { m with total_configs := m.total_configs + 1 }
  if ¬ allowedProtocols.any (fun proto => proto.isPrefixOf line) then (m, none)
  else
    let m := { m with valid_configs := m.valid_configs + 1 }
    let m :=
      match allowedProtocols.find? (fun proto => proto.isPrefixOf line) with
      | some proto => { m with protocol_counts := bumpCount m.protocol_counts proto }
      | none => m
    let m := { m with unique_configs := m.protocol_counts.length }
    (m, some (processLineEntry ip_db line))

/-- One iteration of the `for line in lines` loop of `process_channel`:
skip blank lines, otherwise update the metrics and append the produced
proxy entry, if any. -/
def procStep (ip_db : Option (List Char → Option GeoRecord))
    (acc : ChannelMetrics × List ProxyEntry) (rawLine : List Char) :
    ChannelMetrics × List ProxyEntry :=
  let line := pyStrip rawLine
  if line = [] then acc
  else
    match processLine ip_db acc.1 line with
    | (m, some p) => (m, acc.2 ++ [p])
    | (m, none) => (m, acc.2)

/-- The whole `for line in lines` loop of `process_channel`. -/
def processLines (ip_db : Option (List Char → Option GeoRecord))
    (lines : List (List Char)) (m : ChannelMetrics) : ChannelMetrics × List ProxyEntry :=
  lines.foldl (procStep ip_db) (m, [])

/-- Lines 460–464 of `process_channel`: `if proxies:` counts the cycle
as a success, `else` as a failure. -/
def recordCycleOutcome (now : ℚ) (gotAny : Bool) (ch : ChannelConfig) : ChannelConfig :=
  if gotAny then
    { ch with metrics := { ch.metrics with
        success_count := ch.metrics.success_count + 1, last_success_time := some now } }
  else
    { ch with metrics := { ch.metrics with fail_count := ch.metrics.fail_count + 1 } }

/-- The tail of `process_channel` after the line loop (lines 459–476):
increment `check_count`, count the cycle as a success exactly when the
`proxies` list is non-empty, recompute the score, run the disable
check, and scale every proxy score by `1 + overall_score / 100`. -/
def processChannelSuccess (now : ℚ) (ip_db : Option (List Char → Option GeoRecord))
    (ch : ChannelConfig) (text : List Char) : ChannelConfig × List ProxyEntry :=
  let (m, proxies) := processLines ip_db (pySplitlines text) ch.metrics
  let ch := { ch with metrics := m, check_count := ch.check_count + 1 }
  let ch := recordCycleOutcome now (!proxies.isEmpty) ch
  let ch := applyBreaker (applyScore now ch)
  let multiplier := 1 + ch.metrics.overall_score / 100
  (ch, proxies.map fun p => { p with score := p.score * multiplier })

/-- The `except` path of `process_channel` (lines 407–412): a
transport error increments `check_count` and `fail_count`, recomputes
the score and returns the empty proxy list — with no disable check. -/
def processChannelFailure (now : ℚ) (ch : ChannelConfig) : ChannelConfig × List ProxyEntry :=
  let ch := { ch with check_count := ch.check_count + 1,
                      metrics := { ch.metrics with fail_count := ch.metrics.fail_count + 1 } }
  (applyScore now ch, [])

/-- `process_channel`: the transport collaborator's outcome is the
`fetched` argument (`none` = the `session.get`/`response.text` call
raised, `some text` = the downloaded body). -/
def process_channel (now : ℚ) (ip_db : Option (List Char → Option GeoRecord))
    (ch : ChannelConfig) (fetched : Option (List Char)) : ChannelConfig × List ProxyEntry :=
  match fetched with
  | none => processChannelFailure now ch
  | some text => processChannelSuccess now ip_db ch text

/-! ## config.py: source registry -/

/-- `ProxyConfig._normalize_url` (`none` models the raised/propagated
exception). -/
def normalize_url (url : List Char) : Option (List Char) :=
  if url = [] then none
  else
    let url := pyStrip url
    let url :=
      if "ssconf://".toList.isPrefixOf url then
        pyReplaceOnce url "ssconf://".toList "https://".toList
      else url
    let parsed := pyUrlparse url
    if parsed.scheme = [] ∨ parsed.netloc = [] then none
    else
      let path := rstripWith (· = '/') parsed.path
      if "t.me/s/".toList.isPrefixOf parsed.netloc then
        let channel_name := (pyStripChar '/' parsed.path).map Char.toLower
        some ("telegram:".toList ++ channel_name)
      else
        some (parsed.scheme ++ "://".toList ++ parsed.netloc ++ path)

/-- `ProxyConfig._remove_duplicate_urls`: first occurrence per
normalized key wins; sources whose normalization raises are skipped.
(The `save_empty_config_file` call on an empty result is file I/O and
does not change the returned list.) -/
def remove_duplicate_urls (channel_configs : List ChannelConfig) : List ChannelConfig :=
  (channel_configs.foldl
    (fun (acc : List (List Char) × List ChannelConfig) config =>
      match normalize_url config.url.toList with
      | some key => if acc.1.contains key then acc else (acc.1 ++ [key], acc.2 ++ [config])
      | none => acc)
    ([], [])).2

/-! ## Channel-state operations (for the permanence invariant) -/

/-- Every operation in `config.py` that can touch a channel's state:
a full `process_channel` fetch cycle, a `update_channel_stats` call,
and a bare `calculate_overall_score` recomputation. -/
inductive ChannelOp where
  | fetchCycle (now : ℚ) (ip_db : Option (List Char → Option GeoRecord))
      (fetched : Option (List Char))
  | statsUpdate (now : ℚ) (success : Bool) (response_time : ℚ)
  | rescore (now : ℚ)

def applyOp (ch : ChannelConfig) : ChannelOp → ChannelConfig
  | .fetchCycle now ip_db fetched => (process_channel now ip_db ch fetched).1
  | .statsUpdate now success response_time => update_channel_stats now success response_time ch
  | .rescore now => applyScore now ch

def runOps (ch : ChannelConfig) (ops : List ChannelOp) : ChannelConfig :=
  ops.foldl applyOp ch

/-! ## Helper lemmas -/

lemma mem_appendIfValid {configs : List (List Char)} {c x : List Char}
    (h : x ∈ appendIfValid configs c) : x ∈ configs ∨ is_valid_config x = true := by
  unfold appendIfValid at h
  split at h
  · rcases List.mem_append.mp h with h | h
    · exact Or.inl h
    · rcases List.mem_singleton.mp h
      exact Or.inr ‹_›
  · exact Or.inl h

lemma is_valid_config_parts {c : List Char} (h : is_valid_config c = true) :
    c ≠ [] ∧ (allowedProtocols.any fun p => p.isPrefixOf c) = true := by
  unfold is_valid_config at h
  split at h
  · cases h
  · exact ⟨‹_›, h⟩

lemma scanLoop_mem (text : List Char) :
    ∀ (fuel pos : Nat) (configs : List (List Char)) (x : List Char),
      x ∈ scanLoop text fuel pos configs → x ∈ configs ∨ is_valid_config x = true := by
  intro fuel
  induction fuel with
  | zero => exact fun pos configs x hx => Or.inl hx
  | succ fuel ih =>
    intro pos configs x hx
    rw [scanLoop] at hx
    by_cases hlt : pos < text.length
    · rw [if_pos hlt] at hx
      rcases e : nearestProtocolFrom text pos with ⟨ncs, mp⟩
      rw [e] at hx
      cases mp with
      | none => exact Or.inl hx
      | some protocol =>
        simp only at hx
        rcases ih _ _ _ hx with h | h
        · rcases mem_appendIfValid h with h | h
          · split at h
            · rcases mem_appendIfValid h with h | h
              · exact Or.inl h
              · exact Or.inr h
            · exact Or.inl h
          · exact Or.inr h
        · exact Or.inr h
    · rw [if_neg hlt] at hx
      exact Or.inl hx

lemma splitConfigsLines_mem :
    ∀ (lines : List (List Char)) (text : List Char) (configs : List (List Char)) (x : List Char),
      x ∈ splitConfigsLines lines text configs → x ∈ configs ∨ is_valid_config x = true := by
  intro lines
  induction lines with
  | nil => exact fun text configs x hx => Or.inl hx
  | cons line rest ih =>
    intro text configs x hx
    rw [splitConfigsLines] at hx
    split at hx
    · exact ih _ _ _ hx
    · rcases ih _ _ _ hx with h | h
      · rcases scanLoop_mem _ _ _ _ _ h with h | h
        · exact Or.inl h
        · exact Or.inr h
      · exact Or.inr h

/-- Every record emitted by `split_configs` passes `is_valid_config`. -/
lemma split_configs_mem_valid (blob x : List Char) (h : x ∈ split_configs blob) :
    is_valid_config x = true := by
  rcases splitConfigsLines_mem _ _ _ _ h with h | h
  · cases h
  · exact h

lemma findSub_of_isPrefixOf {s pat : List Char} (hne : pat ≠ [])
    (h : pat.isPrefixOf s = true) : findSub s pat = some 0 := by
  cases s with
  | nil =>
    cases pat with
    | nil => exact absurd rfl hne
    | cons a as => simp [List.isPrefixOf] at h
  | cons c rest =>
    rw [findSub]
    simp [h]

lemma applyScore_enabled (now : ℚ) (ch : ChannelConfig) :
    (applyScore now ch).enabled = ch.enabled := rfl

lemma applyScore_check_count (now : ℚ) (ch : ChannelConfig) :
    (applyScore now ch).check_count = ch.check_count := rfl

lemma applyScore_avg (now : ℚ) (ch : ChannelConfig) :
    (applyScore now ch).metrics.avg_response_time = ch.metrics.avg_response_time := rfl

lemma applyScore_fail (now : ℚ) (ch : ChannelConfig) :
    (applyScore now ch).metrics.fail_count = ch.metrics.fail_count := rfl

lemma applyScore_success (now : ℚ) (ch : ChannelConfig) :
    (applyScore now ch).metrics.success_count = ch.metrics.success_count := rfl

lemma applyScore_last (now : ℚ) (ch : ChannelConfig) :
    (applyScore now ch).metrics.last_success_time = ch.metrics.last_success_time := rfl

lemma applyScore_score (now : ℚ) (ch : ChannelConfig) :
    (applyScore now ch).metrics.overall_score = calculate_overall_score now ch.metrics := rfl

lemma applyBreaker_metrics (ch : ChannelConfig) :
    (applyBreaker ch).metrics = ch.metrics := by
  unfold applyBreaker
  split <;> rfl

lemma applyBreaker_check_count (ch : ChannelConfig) :
    (applyBreaker ch).check_count = ch.check_count := by
  unfold applyBreaker
  split <;> rfl

lemma applyBreaker_enabled (ch : ChannelConfig) :
    (applyBreaker ch).enabled =
      if ch.check_count ≥ MAX_SOURCE_CHECKS ∧ ch.metrics.overall_score < MIN_ACCEPTABLE_SCORE
      then false else ch.enabled := by
  unfold applyBreaker
  split <;> rfl

lemma recordCycleOutcome_enabled (now : ℚ) (gotAny : Bool) (ch : ChannelConfig) :
    (recordCycleOutcome now gotAny ch).enabled = ch.enabled := by
  unfold recordCycleOutcome
  split <;> rfl

lemma recordCycleOutcome_check_count (now : ℚ) (gotAny : Bool) (ch : ChannelConfig) :
    (recordCycleOutcome now gotAny ch).check_count = ch.check_count := by
  unfold recordCycleOutcome
  split <;> rfl

lemma recordCycleOutcome_avg (now : ℚ) (gotAny : Bool) (ch : ChannelConfig) :
    (recordCycleOutcome now gotAny ch).metrics.avg_response_time =
      ch.metrics.avg_response_time := by
  unfold recordCycleOutcome
  split <;> rfl

lemma statsOutcome_avg (now : ℚ) (success : Bool) (m : ChannelMetrics) :
    (statsOutcome now success m).avg_response_time = m.avg_response_time := by
  unfold statsOutcome
  split <;> rfl

lemma statsEma_avg (response_time : ℚ) (m : ChannelMetrics) :
    (statsEma response_time m).avg_response_time =
      if response_time > 0 then
        if m.avg_response_time = 0 then response_time
        else m.avg_response_time * (7 / 10) + response_time * (3 / 10)
      else m.avg_response_time := by
  unfold statsEma
  split
  · split <;> rfl
  · rfl

lemma update_channel_stats_avg (now : ℚ) (success : Bool) (response_time : ℚ)
    (ch : ChannelConfig) :
    (update_channel_stats now success response_time ch).metrics.avg_response_time =
      if response_time > 0 then
        if ch.metrics.avg_response_time = 0 then response_time
        else ch.metrics.avg_response_time * (7 / 10) + response_time * (3 / 10)
      else ch.metrics.avg_response_time := by
  unfold update_channel_stats
  rw [applyBreaker_metrics]
  show (statsEma response_time (statsOutcome now success ch.metrics)).avg_response_time = _
  rw [statsEma_avg, statsOutcome_avg]

lemma processLine_preserves (ip_db : Option (List Char → Option GeoRecord))
    (m : ChannelMetrics) (line : List Char) :
    (processLine ip_db m line).1.fail_count = m.fail_count ∧
    (processLine ip_db m line).1.success_count = m.success_count ∧
    (processLine ip_db m line).1.avg_response_time = m.avg_response_time ∧
    (processLine ip_db m line).1.last_success_time = m.last_success_time := by
  simp only [processLine]
  split
  · exact ⟨rfl, rfl, rfl, rfl⟩
  · split <;> exact ⟨rfl, rfl, rfl, rfl⟩

lemma procStep_preserves (ip_db : Option (List Char → Option GeoRecord))
    (acc : ChannelMetrics × List ProxyEntry) (rawLine : List Char) :
    (procStep ip_db acc rawLine).1.fail_count = acc.1.fail_count ∧
    (procStep ip_db acc rawLine).1.success_count = acc.1.success_count ∧
    (procStep ip_db acc rawLine).1.avg_response_time = acc.1.avg_response_time ∧
    (procStep ip_db acc rawLine).1.last_success_time = acc.1.last_success_time := by
  simp only [procStep]
  split
  · exact ⟨rfl, rfl, rfl, rfl⟩
  · have hp := processLine_preserves ip_db acc.1 (pyStrip rawLine)
    cases hpl : processLine ip_db acc.1 (pyStrip rawLine) with
    | mk m' p? =>
      rw [hpl] at hp
      cases p? <;> exact hp

lemma foldl_procStep_preserves (ip_db : Option (List Char → Option GeoRecord)) :
    ∀ (lines : List (List Char)) (acc : ChannelMetrics × List ProxyEntry),
      (lines.foldl (procStep ip_db) acc).1.fail_count = acc.1.fail_count ∧
      (lines.foldl (procStep ip_db) acc).1.success_count = acc.1.success_count ∧
      (lines.foldl (procStep ip_db) acc).1.avg_response_time = acc.1.avg_response_time ∧
      (lines.foldl (procStep ip_db) acc).1.last_success_time = acc.1.last_success_time := by
  intro lines
  induction lines with
  | nil => exact fun acc => ⟨rfl, rfl, rfl, rfl⟩
  | cons l ls ih =>
    intro acc
    rw [List.foldl_cons]
    have h1 := procStep_preserves ip_db acc l
    have h2 := ih (procStep ip_db acc l)
    exact ⟨h2.1.trans h1.1, h2.2.1.trans h1.2.1, h2.2.2.1.trans h1.2.2.1,
      h2.2.2.2.trans h1.2.2.2⟩

/-- The per-line loop only touches `total_configs`, `valid_configs`,
`protocol_counts` and `unique_configs`; the fetch-outcome counters,
the EMA and the last-success timestamp pass through untouched. -/
lemma processLines_preserves (ip_db : Option (List Char → Option GeoRecord))
    (lines : List (List Char)) (m : ChannelMetrics) :
    (processLines ip_db lines m).1.fail_count = m.fail_count ∧
    (processLines ip_db lines m).1.success_count = m.success_count ∧
    (processLines ip_db lines m).1.avg_response_time = m.avg_response_time ∧
    (processLines ip_db lines m).1.last_success_time = m.last_success_time :=
  foldl_procStep_preserves ip_db lines (m, [])

lemma processChannelSuccess_fst (now : ℚ) (ip_db : Option (List Char → Option GeoRecord))
    (ch : ChannelConfig) (text : List Char) :
    (processChannelSuccess now ip_db ch text).1 =
      applyBreaker (applyScore now (recordCycleOutcome now
        (!(processLines ip_db (pySplitlines text) ch.metrics).2.isEmpty)
        { ch with metrics := (processLines ip_db (pySplitlines text) ch.metrics).1,
                  check_count := ch.check_count + 1 })) := by
  unfold processChannelSuccess
  cases hp : processLines ip_db (pySplitlines text) ch.metrics with
  | mk m proxies => rfl

lemma processChannelSuccess_snd_nil_iff (now : ℚ)
    (ip_db : Option (List Char → Option GeoRecord)) (ch : ChannelConfig) (text : List Char) :
    (processChannelSuccess now ip_db ch text).2 = [] ↔
      (processLines ip_db (pySplitlines text) ch.metrics).2 = [] := by
  unfold processChannelSuccess
  cases hp : processLines ip_db (pySplitlines text) ch.metrics with
  | mk m proxies => simp

lemma round2_eval (q : ℚ) (n : ℤ) (h : ⌊q * 100 + 1 / 2⌋ = n) :
    round2 q = (n : ℚ) / 100 := by
  unfold round2
  rw [h]

lemma round2_bounds {q : ℚ} (h0 : 0 ≤ q) (h1 : q ≤ 100) :
    0 ≤ round2 q ∧ round2 q ≤ 100 := by
  unfold round2
  constructor
  · have hz : 0 ≤ ⌊q * 100 + 1 / 2⌋ := Int.floor_nonneg.mpr (by linarith)
    have : (0 : ℚ) ≤ (⌊q * 100 + 1 / 2⌋ : ℚ) := by exact_mod_cast hz
    linarith
  · have hf : (⌊q * 100 + 1 / 2⌋ : ℚ) ≤ q * 100 + 1 / 2 := Int.floor_le _
    have h2 : ((⌊q * 100 + 1 / 2⌋ : ℤ) : ℚ) < 10001 := by linarith
    have h3 : ⌊q * 100 + 1 / 2⌋ < 10001 := by exact_mod_cast h2
    have h4 : ⌊q * 100 + 1 / 2⌋ ≤ 10000 := by omega
    have h5 : ((⌊q * 100 + 1 / 2⌋ : ℤ) : ℚ) ≤ 10000 := by exact_mod_cast h4
    linarith

lemma reliability_score_bounds (s f : ℕ) :
    0 ≤ ((s : ℚ) / max 1 ((s : ℚ) + (f : ℚ))) * RELIABILITY_WEIGHT ∧
      ((s : ℚ) / max 1 ((s : ℚ) + (f : ℚ))) * RELIABILITY_WEIGHT ≤ RELIABILITY_WEIGHT := by
  have hs0 : (0 : ℚ) ≤ (s : ℚ) := Nat.cast_nonneg s
  have hf0 : (0 : ℚ) ≤ (f : ℚ) := Nat.cast_nonneg f
  have hpos : (0 : ℚ) < max 1 ((s : ℚ) + (f : ℚ)) :=
    lt_of_lt_of_le one_pos (le_max_left _ _)
  have hle : (s : ℚ) ≤ max 1 ((s : ℚ) + (f : ℚ)) :=
    le_trans (by linarith) (le_max_right _ _)
  have hq1 : (s : ℚ) / max 1 ((s : ℚ) + (f : ℚ)) ≤ 1 := (div_le_one hpos).mpr hle
  have hq0 : 0 ≤ (s : ℚ) / max 1 ((s : ℚ) + (f : ℚ)) := div_nonneg hs0 hpos.le
  constructor
  · exact mul_nonneg hq0 (by norm_num [RELIABILITY_WEIGHT])
  · calc ((s : ℚ) / max 1 ((s : ℚ) + (f : ℚ))) * RELIABILITY_WEIGHT
        ≤ 1 * RELIABILITY_WEIGHT :=
          mul_le_mul_of_nonneg_right hq1 (by norm_num [RELIABILITY_WEIGHT])
      _ = RELIABILITY_WEIGHT := one_mul _

lemma quantity_score_bounds (t : ℕ) :
    0 ≤ min QUANTITY_WEIGHT (((t : ℚ) / DESIRED_TOTAL_CONFIGS) * QUANTITY_WEIGHT) ∧
      min QUANTITY_WEIGHT (((t : ℚ) / DESIRED_TOTAL_CONFIGS) * QUANTITY_WEIGHT) ≤
        QUANTITY_WEIGHT := by
  constructor
  · refine le_min (by norm_num [QUANTITY_WEIGHT]) ?_
    have : (0 : ℚ) ≤ (t : ℚ) := Nat.cast_nonneg t
    have h1 : (0 : ℚ) ≤ (t : ℚ) / DESIRED_TOTAL_CONFIGS :=
      div_nonneg this (by norm_num [DESIRED_TOTAL_CONFIGS])
    exact mul_nonneg h1 (by norm_num [QUANTITY_WEIGHT])
  · exact min_le_left _ _

lemma diversity_score_bounds {u : ℕ} (hu : u ≤ 4) :
    0 ≤ ((u : ℚ) / TOTAL_POSSIBLE_PROTOCOLS) * DIVERSITY_WEIGHT ∧
      ((u : ℚ) / TOTAL_POSSIBLE_PROTOCOLS) * DIVERSITY_WEIGHT ≤ DIVERSITY_WEIGHT := by
  have hu0 : (0 : ℚ) ≤ (u : ℚ) := Nat.cast_nonneg u
  have hu4 : (u : ℚ) ≤ 4 := by exact_mod_cast hu
  constructor
  · exact mul_nonneg
      (div_nonneg hu0 (by norm_num [TOTAL_POSSIBLE_PROTOCOLS]))
      (by norm_num [DIVERSITY_WEIGHT])
  · rw [TOTAL_POSSIBLE_PROTOCOLS, DIVERSITY_WEIGHT]
    linarith

lemma frequency_score_bounds {delta : ℚ} (hd : 0 ≤ delta) :
    0 ≤ max 0 (FREQUENCY_WEIGHT * (3600 / (delta + 3600))) ∧
      max 0 (FREQUENCY_WEIGHT * (3600 / (delta + 3600))) ≤ FREQUENCY_WEIGHT := by
  have hpos : (0 : ℚ) < delta + 3600 := by linarith
  have hq : (3600 : ℚ) / (delta + 3600) ≤ 1 := (div_le_one hpos).mpr (by linarith)
  constructor
  · exact le_max_left 0 _
  · refine max_le (by norm_num [FREQUENCY_WEIGHT]) ?_
    calc FREQUENCY_WEIGHT * (3600 / (delta + 3600))
        ≤ FREQUENCY_WEIGHT * 1 :=
          mul_le_mul_of_nonneg_left hq (by norm_num [FREQUENCY_WEIGHT])
      _ = FREQUENCY_WEIGHT := mul_one _

/-! ## Claim theorems -/

/-- C1: extraction should emit one record per prefix occurrence, each
exactly once even on multi-line blobs. The single-line concatenation
does yield the three expected records, but `split_configs` re-scans
the whole working text once per non-empty input line, so a two-line
blob emits every record twice. -/
theorem split_configs_rescans_text_per_line :
    split_configs "vless://atrojan://bvless://c".toList =
      ["vless://a".toList, "trojan://b".toList, "vless://c".toList] ∧
    split_configs "vless://aaa\nvless://bbb".toList =
      ["vless://aaa".toList, "vless://bbb".toList,
       "vless://aaa".toList, "vless://bbb".toList] := by
  constructor <;> rfl

/-- C2 counterexample: `calculate_overall_score` is not bounded by 100
for arbitrary metrics — the diversity term `(unique_configs / 4) × 25`
is unclamped, so `unique_configs = 100` yields 625; likewise a
`last_success_time` in the future makes the frequency term blow up
(here to 54000). -/
theorem calculate_overall_score_exceeds_100 :
    100 < calculate_overall_score 0 { unique_configs := 100 } ∧
    100 < calculate_overall_score 0 { last_success_time := some 3599 } := by
  constructor
  · have he : calculate_overall_score 0 { unique_configs := 100 } = round2 625 := by
      simp only [calculate_overall_score]
      norm_num [RELIABILITY_WEIGHT, QUANTITY_WEIGHT, DIVERSITY_WEIGHT,
        DESIRED_TOTAL_CONFIGS, TOTAL_POSSIBLE_PROTOCOLS, min_def, max_def]
    rw [he, round2_eval 625 62500 (by norm_num [Int.floor_eq_iff])]
    norm_num
  · have he : calculate_overall_score 0 ({ last_success_time := some 3599 } : ChannelMetrics)
        = round2 54000 := by
      simp only [calculate_overall_score]
      norm_num [RELIABILITY_WEIGHT, QUANTITY_WEIGHT, DIVERSITY_WEIGHT, FREQUENCY_WEIGHT,
        DESIRED_TOTAL_CONFIGS, TOTAL_POSSIBLE_PROTOCOLS, min_def, max_def]
    rw [he, round2_eval 54000 5400000 (by norm_num [Int.floor_eq_iff])]
    norm_num

/-- C4 counterexample: extraction keeps any record that merely starts
with an allowed prefix; the per-protocol structural check
(`validate_protocol_config`) is never invoked, so `"vless://"` — whose
authority component is empty and which the structural check rejects —
appears in the extraction output. -/
theorem split_configs_emits_structurally_invalid :
    split_configs "vless://".toList = ["vless://".toList] ∧
    validate_protocol_config "vless://".toList "vless://".toList = false := by
  constructor <;> rfl

/-- C4 (amended): a record is accepted by extraction only if it starts
with one of the recognized canonical prefixes (the hy2 alias being
normalized at record level); the per-protocol structural authority
checks defined in `validate_protocol_config` are not applied by
extraction. -/
theorem split_configs_accepts_only_prefixed (blob r : List Char)
    (h : r ∈ split_configs blob) :
    (allowedProtocols.any fun p => p.isPrefixOf r) = true :=
  (is_valid_config_parts (split_configs_mem_valid blob r h)).2

/-- Witness for the C4 amended theorem at a concrete input. -/
theorem split_configs_accepts_only_prefixed_witness :
    ("trojan://x".toList ∈ split_configs "trojan://x".toList) ∧
    (allowedProtocols.any fun p => p.isPrefixOf "trojan://x".toList) = true :=
  ⟨by decide,
    split_configs_accepts_only_prefixed "trojan://x".toList "trojan://x".toList (by decide)⟩

/-- C6 (code-bug evidence): two channel-feed URLs differing only by
letter case in the channel path are both kept by
`remove_duplicate_urls` — the `netloc.startswith('t.me/s/')` branch of
`_normalize_url` can never fire because a netloc contains no slash —
while URLs differing only by a trailing slash do collapse to one. -/
theorem remove_duplicate_urls_case_variants_kept :
    (remove_duplicate_urls
        [{ url := "https://t.me/s/Alpha" }, { url := "https://t.me/s/alpha" }]).map
        ChannelConfig.url = ["https://t.me/s/Alpha", "https://t.me/s/alpha"] ∧
    (remove_duplicate_urls
        [{ url := "https://example.com/feed" }, { url := "https://example.com/feed/" }]).map
        ChannelConfig.url = ["https://example.com/feed"] := by
  constructor <;> rfl

/-- C8: `normalize_hysteria2_protocol` rewrites exactly the leading
alias prefix to the canonical one — the remainder of the record,
including any embedded occurrence of the alias text, is returned
byte-for-byte — and leaves records not beginning with the alias
unchanged. -/
theorem normalize_hysteria2_alias_rewrite (s : List Char) :
    ("hysteria2://".toList.isPrefixOf s = true →
      normalize_hysteria2_protocol s = "hy2://".toList ++ s.drop 12) ∧
    ("hysteria2://".toList.isPrefixOf s = false →
      normalize_hysteria2_protocol s = s) := by
  constructor
  · intro h
    unfold normalize_hysteria2_protocol
    rw [if_pos h]
    unfold pyReplaceOnce
    rw [findSub_of_isPrefixOf (by decide) h]
    simp
  · intro h
    unfold normalize_hysteria2_protocol
    have hn : ¬("hysteria2://".toList.isPrefixOf s = true) := by
      rw [h]
      exact Bool.false_ne_true
    rw [if_neg hn]

/-- Witness for C8 at a record with the alias text embedded in a query
parameter. -/
theorem normalize_hysteria2_alias_rewrite_witness :
    ("hysteria2://".toList.isPrefixOf "hysteria2://h?x=hysteria2://y".toList = true) ∧
    normalize_hysteria2_protocol "hysteria2://h?x=hysteria2://y".toList =
      "hy2://".toList ++ ("hysteria2://h?x=hysteria2://y".toList.drop 12) :=
  ⟨by decide, (normalize_hysteria2_alias_rewrite _).1 (by decide)⟩

/-- C9: with no prior sample (`avg_response_time = 0`) a fetch-outcome
update with response time 4 sets the EMA to exactly 4, and a
subsequent sample of 10 updates it to `4 × 0.7 + 10 × 0.3 = 5.8`
(exact rational arithmetic). -/
theorem ema_first_then_second (ch : ChannelConfig) (now1 now2 : ℚ) (s1 s2 : Bool)
    (h : ch.metrics.avg_response_time = 0) :
    (update_channel_stats now1 s1 4 ch).metrics.avg_response_time = 4 ∧
    (update_channel_stats now2 s2 10
        (update_channel_stats now1 s1 4 ch)).metrics.avg_response_time = 5.8 := by
  have h1 : (update_channel_stats now1 s1 4 ch).metrics.avg_response_time = 4 := by
    rw [update_channel_stats_avg, h]
    norm_num
  refine ⟨h1, ?_⟩
  rw [update_channel_stats_avg, h1]
  norm_num

/-- Witness for C9 at a freshly constructed channel. -/
theorem ema_first_then_second_witness :
    (update_channel_stats 0 true 4 { url := "u" }).metrics.avg_response_time = 4 ∧
    (update_channel_stats 1 false 10
        (update_channel_stats 0 true 4 { url := "u" })).metrics.avg_response_time = 5.8 :=
  ema_first_then_second { url := "u" } 0 1 true false rfl

/-- C10: every string in the `split_configs` output is non-empty and
starts with one of the four allowed protocol prefixes — both append
sites are guarded by `is_valid_config`. -/
theorem split_configs_outputs_are_prefixed (blob r : List Char)
    (h : r ∈ split_configs blob) :
    r ≠ [] ∧ (allowedProtocols.any fun p => p.isPrefixOf r) = true :=
  is_valid_config_parts (split_configs_mem_valid blob r h)

/-- C2 (amended): for metrics whose `unique_configs` does not exceed
`TOTAL_POSSIBLE_PROTOCOLS = 4` (the only values the per-line loop can
produce) and whose `last_success_time`, when present, is not in the
future, `calculate_overall_score` lies in `[0, 100]`; with all-zero
counters and no last success it is exactly `0`. -/
theorem calculate_overall_score_bounds :
    (∀ (m : ChannelMetrics) (now : ℚ), m.unique_configs ≤ 4 →
      (∀ t, m.last_success_time = some t → t ≤ now) →
      0 ≤ calculate_overall_score now m ∧ calculate_overall_score now m ≤ 100) ∧
    (∀ now : ℚ, calculate_overall_score now {} = 0) := by
  have hsum : RELIABILITY_WEIGHT + QUANTITY_WEIGHT + DIVERSITY_WEIGHT + FREQUENCY_WEIGHT
      = 100 := by
    norm_num [RELIABILITY_WEIGHT, QUANTITY_WEIGHT, DIVERSITY_WEIGHT, FREQUENCY_WEIGHT]
  have hfw : (0 : ℚ) ≤ FREQUENCY_WEIGHT := by norm_num [FREQUENCY_WEIGHT]
  constructor
  · intro m now hu ht
    have hr := reliability_score_bounds m.success_count m.fail_count
    have hq := quantity_score_bounds m.total_configs
    have hd := diversity_score_bounds hu
    simp only [calculate_overall_score]
    cases hls : m.last_success_time with
    | none =>
      exact round2_bounds (by linarith [hr.1, hq.1, hd.1])
        (by linarith [hr.2, hq.2, hd.2])
    | some t =>
      have hdelta : 0 ≤ now - t := by linarith [ht t hls]
      have hf := frequency_score_bounds hdelta
      have hne : ¬(now - t + 3600 = 0) := by intro hc; linarith
      simp only [if_neg hne]
      exact round2_bounds (by linarith [hr.1, hq.1, hd.1, hf.1])
        (by linarith [hr.2, hq.2, hd.2, hf.2])
  · intro now
    have he : calculate_overall_score now ({} : ChannelMetrics) = round2 0 := by
      simp only [calculate_overall_score]
      norm_num [RELIABILITY_WEIGHT, QUANTITY_WEIGHT, DIVERSITY_WEIGHT,
        DESIRED_TOTAL_CONFIGS, TOTAL_POSSIBLE_PROTOCOLS, min_def, max_def]
    rw [he, round2_eval 0 0 (by norm_num [Int.floor_eq_iff])]
    norm_num

/-- Witness for the C2 amended theorem at concrete metrics. -/
theorem calculate_overall_score_bounds_witness :
    (({ unique_configs := 4, success_count := 3, fail_count := 1, total_configs := 50,
        last_success_time := some 0 } : ChannelMetrics).unique_configs ≤ 4) ∧
    (0 ≤ calculate_overall_score 100
        { unique_configs := 4, success_count := 3, fail_count := 1, total_configs := 50,
          last_success_time := some 0 } ∧
      calculate_overall_score 100
        { unique_configs := 4, success_count := 3, fail_count := 1, total_configs := 50,
          last_success_time := some 0 } ≤ 100) :=
  ⟨by decide,
    calculate_overall_score_bounds.1
      { unique_configs := 4, success_count := 3, fail_count := 1, total_configs := 50,
        last_success_time := some 0 } 100 (by decide)
      (fun t h => by
        injection h with h'
        rw [← h']
        norm_num)⟩

/-- C3 (amended): the circuit breaker fires only at the end of a fetch
cycle whose transport call succeeded: there, a resulting `check_count ≥
30` with `overall_score < 50` forces `enabled = false`, while
`check_count < 30` leaves an enabled source enabled. A cycle that ends
in a transport error updates `check_count` and `fail_count` but never
evaluates the breaker, so `enabled` is unchanged on such cycles. -/
theorem circuit_breaker_only_on_transport_success :
    (∀ (now : ℚ) (ip_db : Option (List Char → Option GeoRecord)) (ch : ChannelConfig)
        (text : List Char), ch.enabled = true →
      (((process_channel now ip_db ch (some text)).1.check_count ≥ MAX_SOURCE_CHECKS ∧
        (process_channel now ip_db ch (some text)).1.metrics.overall_score <
          MIN_ACCEPTABLE_SCORE) →
        (process_channel now ip_db ch (some text)).1.enabled = false) ∧
      ((process_channel now ip_db ch (some text)).1.check_count < MAX_SOURCE_CHECKS →
        (process_channel now ip_db ch (some text)).1.enabled = true)) ∧
    (∀ (now : ℚ) (ip_db : Option (List Char → Option GeoRecord)) (ch : ChannelConfig),
      (process_channel now ip_db ch none).1.enabled = ch.enabled) := by
  constructor
  · intro now ip_db ch text hen
    simp only [process_channel]
    rw [processChannelSuccess_fst, applyBreaker_check_count, applyBreaker_metrics,
      applyBreaker_enabled]
    constructor
    · intro hcond
      rw [if_pos hcond]
    · intro hlt
      rw [if_neg (fun hc => absurd hc.1 (Nat.not_le.mpr hlt)), applyScore_enabled,
        recordCycleOutcome_enabled]
      exact hen
  · intro now ip_db ch
    rfl

/-- C3 counterexample: a transport-error cycle that brings
`check_count` to 30 with `overall_score = 10 < 50` leaves the source
enabled, because the error path of `process_channel` (lines 407–412)
never runs the disable check. -/
theorem error_cycle_reaches_threshold_but_stays_enabled :
    ((process_channel 0 none
      { url := "https://example.com/a", check_count := 29, metrics := { total_configs := 400 } }
      none).1.check_count = 30) ∧
    ((process_channel 0 none
      { url := "https://example.com/a", check_count := 29, metrics := { total_configs := 400 } }
      none).1.metrics.overall_score = 10) ∧
    ((process_channel 0 none
      { url := "https://example.com/a", check_count := 29, metrics := { total_configs := 400 } }
      none).1.enabled = true) := by
  refine ⟨rfl, ?_, rfl⟩
  show calculate_overall_score 0 { total_configs := 400, fail_count := 1 } = 10
  have he : calculate_overall_score 0
      ({ total_configs := 400, fail_count := 1 } : ChannelMetrics) = round2 10 := by
    simp only [calculate_overall_score]
    norm_num [RELIABILITY_WEIGHT, QUANTITY_WEIGHT, DIVERSITY_WEIGHT,
      DESIRED_TOTAL_CONFIGS, TOTAL_POSSIBLE_PROTOCOLS, min_def, max_def]
  rw [he, round2_eval 10 1000 (by norm_num [Int.floor_eq_iff])]
  norm_num

/-- Witness for the C3 amended theorem: a transport-successful cycle
that reaches 30 checks with a low score disables the source. -/
theorem circuit_breaker_only_on_transport_success_witness :
    (process_channel 0 none { url := "https://example.com/a", check_count := 29 }
      (some "hello".toList)).1.enabled = false := by
  have hcheck : (process_channel 0 none
      { url := "https://example.com/a", check_count := 29 }
      (some "hello".toList)).1.check_count = 30 := by
    simp only [process_channel]
    rw [processChannelSuccess_fst, applyBreaker_check_count, applyScore_check_count,
      recordCycleOutcome_check_count]
  have hscore : (process_channel 0 none
      { url := "https://example.com/a", check_count := 29 }
      (some "hello".toList)).1.metrics.overall_score = 3 / 100 := by
    simp only [process_channel]
    rw [processChannelSuccess_fst, applyBreaker_metrics, applyScore_score]
    show calculate_overall_score 0 { total_configs := 1, fail_count := 1 } = 3 / 100
    have he : calculate_overall_score 0
        ({ total_configs := 1, fail_count := 1 } : ChannelMetrics) = round2 (1 / 40) := by
      simp only [calculate_overall_score]
      norm_num [RELIABILITY_WEIGHT, QUANTITY_WEIGHT, DIVERSITY_WEIGHT,
        DESIRED_TOTAL_CONFIGS, TOTAL_POSSIBLE_PROTOCOLS, min_def, max_def]
    rw [he, round2_eval (1 / 40) 3 (by norm_num [Int.floor_eq_iff])]
    norm_num
  have h := (circuit_breaker_only_on_transport_success.1 0 none
    { url := "https://example.com/a", check_count := 29 } "hello".toList rfl).1
  exact h ⟨by rw [hcheck]; decide, by rw [hscore]; norm_num [MIN_ACCEPTABLE_SCORE]⟩

/-- C5: once a channel's `enabled` flag is `false`, no channel-state
operation in the code (a fetch cycle through `process_channel`, an
`update_channel_stats` call, or a bare score recomputation) ever sets
it back to `true` — disablement is permanent. -/
theorem disabled_channel_stays_disabled (ch : ChannelConfig) (ops : List ChannelOp)
    (h : ch.enabled = false) : (runOps ch ops).enabled = false := by
  induction ops generalizing ch with
  | nil => exact h
  | cons op rest ih =>
    refine ih (applyOp ch op) ?_
    cases op with
    | fetchCycle now ip_db fetched =>
      cases fetched with
      | none => exact h
      | some text =>
        show (processChannelSuccess now ip_db ch text).1.enabled = false
        rw [processChannelSuccess_fst, applyBreaker_enabled]
        split
        · rfl
        · rw [applyScore_enabled, recordCycleOutcome_enabled]
          exact h
    | statsUpdate now success response_time =>
      show (update_channel_stats now success response_time ch).enabled = false
      unfold update_channel_stats
      rw [applyBreaker_enabled]
      split
      · rfl
      · rw [applyScore_enabled]
        exact h
    | rescore now => exact h

/-- Witness for C5: a disabled channel stays disabled across a mixed
operation sequence. -/
theorem disabled_channel_stays_disabled_witness :
    (runOps { url := "https://example.com/a", enabled := false }
      [ChannelOp.statsUpdate 0 true 4,
       ChannelOp.fetchCycle 1 none (some "vless://u@h:1".toList),
       ChannelOp.fetchCycle 2 none none,
       ChannelOp.rescore 3]).enabled = false :=
  disabled_channel_stays_disabled _ _ rfl

/-- C7 (amended): a transport-error cycle increments exactly
`fail_count` among the outcome counters and returns no records; a
transport-success cycle leaves `avg_response_time` untouched (the
measured latency is never folded in by `process_channel`) and counts
the cycle as a success — incrementing `success_count` and setting
`last_success_time` — exactly when at least one record was extracted,
counting it as a failure otherwise. -/
theorem process_channel_outcome_paths :
    (∀ (now : ℚ) (ip_db : Option (List Char → Option GeoRecord)) (ch : ChannelConfig),
      (process_channel now ip_db ch none).1.metrics.fail_count = ch.metrics.fail_count + 1 ∧
      (process_channel now ip_db ch none).1.metrics.success_count = ch.metrics.success_count ∧
      (process_channel now ip_db ch none).1.metrics.avg_response_time =
        ch.metrics.avg_response_time ∧
      (process_channel now ip_db ch none).1.metrics.last_success_time =
        ch.metrics.last_success_time ∧
      (process_channel now ip_db ch none).2 = []) ∧
    (∀ (now : ℚ) (ip_db : Option (List Char → Option GeoRecord)) (ch : ChannelConfig)
        (text : List Char),
      (process_channel now ip_db ch (some text)).1.metrics.avg_response_time =
        ch.metrics.avg_response_time ∧
      ((process_channel now ip_db ch (some text)).2 ≠ [] →
        (process_channel now ip_db ch (some text)).1.metrics.success_count =
          ch.metrics.success_count + 1 ∧
        (process_channel now ip_db ch (some text)).1.metrics.last_success_time = some now ∧
        (process_channel now ip_db ch (some text)).1.metrics.fail_count =
          ch.metrics.fail_count) ∧
      ((process_channel now ip_db ch (some text)).2 = [] →
        (process_channel now ip_db ch (some text)).1.metrics.fail_count =
          ch.metrics.fail_count + 1 ∧
        (process_channel now ip_db ch (some text)).1.metrics.success_count =
          ch.metrics.success_count ∧
        (process_channel now ip_db ch (some text)).1.metrics.last_success_time =
          ch.metrics.last_success_time)) := by
  constructor
  · exact fun now ip_db ch => ⟨rfl, rfl, rfl, rfl, rfl⟩
  · intro now ip_db ch text
    have hpres := processLines_preserves ip_db (pySplitlines text) ch.metrics
    simp only [process_channel]
    refine ⟨?_, ?_, ?_⟩
    · rw [processChannelSuccess_fst, applyBreaker_metrics, applyScore_avg,
        recordCycleOutcome_avg]
      exact hpres.2.2.1
    · intro hne
      have hpe : (processLines ip_db (pySplitlines text) ch.metrics).2 ≠ [] := by
        intro hc
        exact hne ((processChannelSuccess_snd_nil_iff now ip_db ch text).mpr hc)
      have hb : (!(processLines ip_db (pySplitlines text) ch.metrics).2.isEmpty) = true := by
        cases hl : (processLines ip_db (pySplitlines text) ch.metrics).2 with
        | nil => exact absurd hl hpe
        | cons a as => rfl
      rw [processChannelSuccess_fst, applyBreaker_metrics, hb]
      simp only [recordCycleOutcome, if_true, applyScore_avg, applyScore_success,
        applyScore_fail, applyScore_last]
      exact ⟨by show (processLines ip_db (pySplitlines text) ch.metrics).1.success_count + 1
                  = ch.metrics.success_count + 1
                rw [hpres.2.1],
        trivial,
        by show (processLines ip_db (pySplitlines text) ch.metrics).1.fail_count
              = ch.metrics.fail_count
           exact hpres.1⟩
    · intro hnil
      have hpn : (processLines ip_db (pySplitlines text) ch.metrics).2 = [] :=
        (processChannelSuccess_snd_nil_iff now ip_db ch text).mp hnil
      have hb : (!(processLines ip_db (pySplitlines text) ch.metrics).2.isEmpty) = false := by
        rw [hpn]
        rfl
      rw [processChannelSuccess_fst, applyBreaker_metrics, hb]
      simp only [recordCycleOutcome, Bool.false_eq_true, if_false, applyScore_avg,
        applyScore_success, applyScore_fail, applyScore_last]
      exact ⟨by show (processLines ip_db (pySplitlines text) ch.metrics).1.fail_count + 1
                  = ch.metrics.fail_count + 1
                rw [hpres.1],
        by show (processLines ip_db (pySplitlines text) ch.metrics).1.success_count
              = ch.metrics.success_count
           exact hpres.2.1,
        by show (processLines ip_db (pySplitlines text) ch.metrics).1.last_success_time
              = ch.metrics.last_success_time
           exact hpres.2.2.2⟩

/-- C7 counterexample: a cycle whose transport call succeeded but whose
body yielded no records is counted as a *failure* — `fail_count` rises,
`success_count` does not — and the measured latency is never folded
into `avg_response_time` (which `process_channel` never touches),
contradicting the claim's unconditional success path. -/
theorem transport_success_with_no_records_counts_failure :
    ((process_channel 5 none { url := "https://example.com/a" }
        (some "hello".toList)).1.metrics.success_count = 0) ∧
    ((process_channel 5 none { url := "https://example.com/a" }
        (some "hello".toList)).1.metrics.fail_count = 1) ∧
    ((process_channel 5 none { url := "https://example.com/a" }
        (some "hello".toList)).1.metrics.avg_response_time = 0) ∧
    ((process_channel 5 none { url := "https://example.com/a" }
        (some "hello".toList)).2 = []) := by
  refine ⟨?_, ?_, ?_, rfl⟩ <;>
    · simp only [process_channel]
      rw [processChannelSuccess_fst, applyBreaker_metrics]
      rfl

/-- Witness for the C7 amended theorem: a success cycle with one
extracted record increments `success_count` and stamps
`last_success_time`. -/
theorem process_channel_outcome_paths_witness :
    ((process_channel 2 none { url := "https://example.com/a" }
        (some "vless://u@h:1".toList)).1.metrics.success_count =
      ({ url := "https://example.com/a" } : ChannelConfig).metrics.success_count + 1) ∧
    ((process_channel 2 none { url := "https://example.com/a" }
        (some "vless://u@h:1".toList)).1.metrics.last_success_time = some 2) := by
  have h := (process_channel_outcome_paths.2 2 none { url := "https://example.com/a" }
    "vless://u@h:1".toList).2.1
  have hlen : ((process_channel 2 none { url := "https://example.com/a" }
      (some "vless://u@h:1".toList)).2).length = 1 := rfl
  have hne : (process_channel 2 none { url := "https://example.com/a" }
      (some "vless://u@h:1".toList)).2 ≠ [] := by
    intro hc
    rw [hc] at hlen
    exact absurd hlen (by decide)
  exact ⟨(h hne).1, (h hne).2.1⟩

/-- Witness for C10 at a concrete noisy blob. -/
theorem split_configs_outputs_are_prefixed_witness :
    ("vless://a".toList ∈ split_configs "noise vless://a".toList) ∧
    ("vless://a".toList ≠ [] ∧
      (allowedProtocols.any fun p => p.isPrefixOf "vless://a".toList) = true) :=
  ⟨by decide,
    split_configs_outputs_are_prefixed "noise vless://a".toList "vless://a".toList (by decide)⟩

end MPCF
